import Mathlib

/-!
Shallow embedding of `redis_models` (dsoftwareinc/redis-models): the field
type system (`redis_models/fields.py`), the query/filter engine and the
id-allocation protocol (`redis_models/core.py`), together with theorems
checking the natural-language specification against this embedding.

Python values are modelled by the inductive `PyVal`.  Machine floats are
deliberately left out of the modelled universe (no claim under scrutiny
depends on float arithmetic); code paths that would produce a Python float
are modelled as explicit errors and are never exercised by a theorem.
-/

namespace RedisModels

/-- Components of a Python `datetime.datetime`: wall-clock fields plus an
optional fixed utcoffset in minutes (`none` models a naive datetime). -/
structure PyDateTime where
  year : Nat
  month : Nat
  day : Nat
  hour : Nat
  minute : Nat
  second : Nat
  microsecond : Nat
  tzOffsetMin : Option Int
deriving DecidableEq

/-- Components of a Python `datetime.date`. -/
structure PyDate where
  year : Nat
  month : Nat
  day : Nat
deriving DecidableEq

/-- The universe of Python values the embedding manipulates: `None`, bools,
ints, strings, lists, datetimes, dates, and `RedisModel` instances (a model
name together with the instance's field map, in insertion order). -/
inductive PyVal where
  | none
  | bool (b : Bool)
  | int (n : Int)
  | str (s : String)
  | list (xs : List PyVal)
  | dt (d : PyDateTime)
  | date (d : PyDate)
  | inst (model : String) (fields : List (String × PyVal))

/-- Python truthiness (`bool(v)`), restricted to the modelled universe. -/
def PyVal.truthy : PyVal → Bool
  | .none => false
  | .bool b => b
  | .int n => n != 0
  | .str s => s ≠ ""
  | .list xs => !xs.isEmpty
  | .dt _ => true
  | .date _ => true
  | .inst _ _ => true

/-- Models the Python identity test `v is None`. -/
def PyVal.isNone : PyVal → Bool
  | .none => true
  | _ => false

/-- Models `isinstance(v, int)`: in Python, `bool` is a subclass of `int`.
Since floats are outside the modelled universe, this also models
`isinstance(v, (int, float))`. -/
def PyVal.isIntLike : PyVal → Bool
  | .int _ => true
  | .bool _ => true
  | _ => false

/-- Models `isinstance(v, bool)`. -/
def PyVal.isBool : PyVal → Bool
  | .bool _ => true
  | _ => false

/-- Models `isinstance(v, str)`. -/
def PyVal.isStr : PyVal → Bool
  | .str _ => true
  | _ => false

/-- Models `isinstance(v, RedisModel)`. -/
def PyVal.isInst : PyVal → Bool
  | .inst _ _ => true
  | _ => false

/-- Models `int(v)` coercion where Python would accept it (bool, int, or a
string of digits with an optional sign). -/
def PyVal.asInt? : PyVal → Option Int
  | .int n => some n
  | .bool b => some (if b then 1 else 0)
  | _ => Option.none

/-- Days from 1970-01-01 for a civil date (Hinnant's algorithm); every
intermediate quantity is nonnegative for the years that interest us, so any
integer-division convention agrees. -/
def daysFromCivil (y m d : Nat) : Int :=
  let yi : Int := if m ≤ 2 then (y : Int) - 1 else (y : Int)
  let era : Int := yi / 400
  let yoe : Int := yi - era * 400
  let mp : Int := if m > 2 then (m : Int) - 3 else (m : Int) + 9
  let doy : Int := (153 * mp + 2) / 5 + (d : Int) - 1
  let doe : Int := yoe * 365 + yoe / 4 - yoe / 100 + doy
  era * 146097 + doe - 719468

/-- The instant a datetime with the given utcoffset (minutes) denotes, in
microseconds from the epoch. -/
def toInstantUs (d : PyDateTime) (offMin : Int) : Int :=
  daysFromCivil d.year d.month d.day * 86400000000
    + (d.hour : Int) * 3600000000 + (d.minute : Int) * 60000000
    + (d.second : Int) * 1000000 + (d.microsecond : Int)
    - offMin * 60000000

/-- Python `==` on datetimes: two aware datetimes compare by the instant
they denote; two naive ones by components; naive vs aware is `False`. -/
def dtEq (a b : PyDateTime) : Bool :=
  match a.tzOffsetMin, b.tzOffsetMin with
  | some oa, some ob => toInstantUs a oa == toInstantUs b ob
  | Option.none, Option.none => a == b
  | _, _ => false

mutual

/-- Python `==` on the modelled universe: numeric kinds compare by value
(`True == 1`), datetimes per `dtEq`, lists pointwise, and `RedisModel`
instances field-by-field in declaration order (`RedisModel.__eq__` walks
`self.__fields__` and compares attribute values). -/
def pyEq : PyVal → PyVal → Bool
  | .none, .none => true
  | .bool a, .bool b => a == b
  | .bool a, .int b => (if a then (1 : Int) else 0) == b
  | .int a, .bool b => a == (if b then (1 : Int) else 0)
  | .int a, .int b => a == b
  | .str a, .str b => a == b
  | .list a, .list b => pyEqList a b
  | .dt a, .dt b => dtEq a b
  | .date a, .date b => a == b
  | .inst _ fa, .inst _ fb => pyEqFields fa fb
  | _, _ => false

def pyEqList : List PyVal → List PyVal → Bool
  | [], [] => true
  | a :: as, b :: bs => pyEq a b && pyEqList as bs
  | _, _ => false

def pyEqFields : List (String × PyVal) → List (String × PyVal) → Bool
  | [], [] => true
  | (ka, va) :: as, (kb, vb) :: bs => ka == kb && pyEq va vb && pyEqFields as bs
  | _, _ => false

end

/-! ### Id allocation (`RedisModelManager.next_id`, `core.py` 340-346)

The claim quantifies over executions where the lock-acquire / read /
increment / write / release sequence runs with true mutual exclusion, so the
protocol is modelled as an atomic step on the stored counter.  The counter
key is absent until the first allocation (`int(stored_max_id or 0)`); the
per-model counters of one manager are modelled as a map from model name to
an optional stored value. -/

/-- One `next_id` critical section on a single model's stored counter:
read the stored value (0 when the key is absent), add one, write back,
return the new id. -/
def next_id (stored : Option Nat) : Option Nat × Nat :=
  let newId := stored.getD 0 + 1
  (some newId, newId)

/-- A serialized sequence of `next_id` calls, one per listed model name,
against the shared manager state; returns the final counters and the list
of (model name, issued id) pairs in issue order. -/
def run_allocs : (String → Option Nat) → List String → (String → Option Nat) × List (String × Nat)
  | counters, [] => (counters, [])
  | counters, m :: ms =>
    let step := next_id (counters m)
    let counters' := fun k => if k = m then step.1 else counters k
    let rest := run_allocs counters' ms
    (rest.1, (m, step.2) :: rest.2)

/-- The ids issued for one model name, in issue order. -/
def ids_for (m : String) (l : List (String × Nat)) : List Nat :=
  (l.filter (fun p => p.1 == m)).map (fun p => p.2)

theorem ids_for_cons (m m' : String) (n : Nat) (l : List (String × Nat)) :
    ids_for m ((m', n) :: l) = if m' = m then n :: ids_for m l else ids_for m l := by
  by_cases h : m' = m
  · subst h; simp [ids_for, List.filter_cons]
  · simp [ids_for, List.filter_cons, beq_eq_false_iff_ne.mpr h, h]

theorem ids_for_run_allocs (m : String) :
    ∀ (ms : List String) (counters : String → Option Nat),
      ids_for m (run_allocs counters ms).2 =
        List.range' ((counters m).getD 0 + 1) (ms.count m) := by
  intro ms
  induction ms with
  | nil => intro counters; simp [run_allocs, ids_for]
  | cons m' ms ih =>
    intro counters
    show ids_for m ((m', (next_id (counters m')).2) ::
        (run_allocs (fun k => if k = m' then (next_id (counters m')).1 else counters k) ms).2) = _
    rw [ids_for_cons, ih]
    by_cases h : m' = m
    · subst h
      rw [if_pos rfl]
      simp only [if_pos rfl, next_id, List.count_cons_self]
      simp [List.range'_succ]
    · rw [if_neg h]
      have hk : (if m = m' then (next_id (counters m')).1 else counters m) = counters m := by
        simp [Ne.symm h]
      rw [hk, List.count_cons_of_ne (Ne.symm h)]

theorem pairwise_lt_range' : ∀ (n s : Nat), List.Pairwise (· < ·) (List.range' s n)
  | 0, _ => by simp
  | n + 1, s => by
    rw [List.range'_succ]
    refine List.Pairwise.cons ?_ (pairwise_lt_range' n (s + 1))
    intro b hb
    have := (List.mem_range'_1).1 hb
    omega

/-- C1: under mutual exclusion of the lock/read/increment/write/release
sequence, every `next_id` call returns the previously stored counter value
plus one, and for any interleaved sequence of allocations across models the
ids issued for each model name are strictly increasing and pairwise
distinct. -/
theorem C1_ids_strictly_increasing_and_unique
    (counters : String → Option Nat) (ms : List String) (m : String) :
    (∀ stored : Option Nat, (next_id stored).2 = stored.getD 0 + 1) ∧
    List.Pairwise (· < ·) (ids_for m (run_allocs counters ms).2) ∧
    (ids_for m (run_allocs counters ms).2).Nodup := by
  refine ⟨fun _ => rfl, ?_, ?_⟩
  · rw [ids_for_run_allocs]; exact pairwise_lt_range' _ _
  · rw [ids_for_run_allocs]
    exact (pairwise_lt_range' _ _).imp Nat.ne_of_lt

/-! ### Field type system (`fields.py`, `utils.py`)

A field's configuration carries the resolved `default` (callables already
executed; Python `None` is `PyVal.none`), the optional `choices` mapping
(only its key list is consulted: `check_value` tests membership in
`choices.keys()`), and the `null` flag.  Errors raised by the Python code
(`RedisModelsException`, `Exception`, `ValueError`, `TypeError`,
`AttributeError`) are all modelled as `Except.error` with a describing
message. -/

structure FieldCfg where
  default : PyVal
  choices : Option (List PyVal)
  null : Bool

theorem except_ok_bind {ε α β : Type} (a : α) (f : α → Except ε β) :
    (Except.ok a >>= f) = f a := rfl

theorem except_error_bind {ε α β : Type} (e : ε) (f : α → Except ε β) :
    ((Except.error e : Except ε α) >>= f) = Except.error e := rfl

theorem except_pure_eq_ok {ε α : Type} (a : α) : (pure a : Except ε α) = Except.ok a := rfl

theorem except_bind_ok {ε α β : Type} (a : α) (f : α → Except ε β) :
    (Except.ok a : Except ε α).bind f = f a := rfl

theorem except_bind_error {ε α β : Type} (e : ε) (f : α → Except ε β) :
    (Except.error e : Except ε α).bind f = Except.error e := rfl

/-- `utils.validate_type`: returns the value unchanged when it is falsy or
an instance of one of the allowed types, otherwise raises. -/
def validate_type (value : PyVal) (allowed : PyVal → Bool) : Except String PyVal :=
  if !value.truthy || allowed value then .ok value
  else .error "type not allowed"

/-- Membership of a value in the choices key list, via Python `==`. -/
def inChoices (keys : List PyVal) (v : PyVal) : Bool :=
  keys.any (fun k => pyEq v k)

/-- `RedisField.check_value`: resolve the default when the value is `None`,
reject `None` when `null` is disallowed, and reject a truthy value absent
from a truthy `choices` mapping (a falsy value, or an empty mapping,
skips the membership check because of the `self.value and self.choices`
truthiness guard). -/
def check_value (cfg : FieldCfg) (value : PyVal) : Except String PyVal :=
  let value := if value.isNone then cfg.default else value
  if value.isNone && !cfg.null then .error "null is not allowed"
  else
    match cfg.choices with
    | some keys =>
      if value.truthy && !keys.isEmpty && !inChoices keys value then
        .error "value is not allowed"
      else .ok value
    | Option.none => .ok value

/-- `RedisField.clean` of the base class is exactly `check_value`. -/
def field_clean (cfg : FieldCfg) (value : PyVal) : Except String PyVal :=
  check_value cfg value

/-- `RedisField.deserialize_value`: a `None` for a non-nullable field is
logged and, in strict mode, raised; otherwise the raw value is returned. -/
def field_deserialize_value (cfg : FieldCfg) (value : PyVal) (ignoreErrors : Bool) :
    Except String PyVal :=
  if value.isNone && !cfg.null && !ignoreErrors then
    .error "cannot be deserialized"
  else .ok value

/-- Python f-string coercion `f'{v}'` on the modelled universe.  The repr
of containers and instances is not modelled precisely (no claim depends on
it); scalars follow Python's `str()`. -/
def pyStrCoerce : PyVal → String
  | .none => "None"
  | .bool b => if b then "True" else "False"
  | .int n => toString n
  | .str s => s
  | .list _ => "<list repr not modelled>"
  | .dt _ => "<datetime repr not modelled>"
  | .date _ => "<date repr not modelled>"
  | .inst m _ => "<" ++ m ++ " instance>"

/-- `RedisString.clean`: `check_value`, then coerce a non-`None` result to
its string form. -/
def string_clean (cfg : FieldCfg) (value : PyVal) : Except String PyVal := do
  let v ← check_value cfg value
  if v.isNone then pure v else pure (.str (pyStrCoerce v))

/-- `RedisString.deserialize_value`: base deserialization, then coerce a
non-`None` value to its string form. -/
def string_deserialize (cfg : FieldCfg) (value : PyVal) (ignoreErrors : Bool) :
    Except String PyVal := do
  let v ← field_deserialize_value cfg value ignoreErrors
  if v.isNone then pure v else pure (.str (pyStrCoerce v))

/-- Digits of a nonempty all-digit character list read as a number. -/
def digitsToNat (cs : List Char) : Option Nat :=
  cs.foldlM (fun acc c => if c.isDigit then some (acc * 10 + (c.toNat - 48)) else Option.none) 0

/-- Python `int(s)` on a string: optional sign followed by at least one
digit (whitespace trimming and underscore grouping are not modelled; no
claim depends on them). -/
def pyIntOfString (s : String) : Option Int :=
  match s.data with
  | [] => Option.none
  | '-' :: rest =>
    if rest.isEmpty then Option.none
    else (digitsToNat rest).map (fun n => -(n : Int))
  | '+' :: rest =>
    if rest.isEmpty then Option.none
    else (digitsToNat rest).map (fun n => (n : Int))
  | cs => (digitsToNat cs).map (fun n => (n : Int))

/-- `RedisNumber.clean`: `check_value`, then `validate_type(value, (int,
float))`. -/
def number_clean (cfg : FieldCfg) (value : PyVal) : Except String PyVal := do
  let v ← check_value cfg value
  validate_type v PyVal.isIntLike

/-- `RedisNumber.deserialize_value`: base deserialization; a string is
parsed with `float` when it contains a dot (floats are outside the modelled
universe, so that branch is an explicit model error never exercised by a
theorem) and with `int` otherwise; finally `validate_type(value, (int,
float))`. -/
def number_deserialize (cfg : FieldCfg) (value : PyVal) (ignoreErrors : Bool) :
    Except String PyVal := do
  let v ← field_deserialize_value cfg value ignoreErrors
  let v ← match v with
    | .str s =>
      if s.data.contains '.' then
        Except.error "float parsing lies outside the modelled universe"
      else
        match pyIntOfString s with
        | some n => pure (PyVal.int n)
        | Option.none => Except.error "invalid literal for int"
    | w => pure w
  validate_type v PyVal.isIntLike

/-- Python `int(v)` on a non-string value (used by `RedisBool.clean` after
`validate_type(value, bool)`, which a falsy value of any type passes). -/
def pyIntCoerce : PyVal → Except String Int
  | .bool b => .ok (if b then 1 else 0)
  | .int n => .ok n
  | .str s =>
    match pyIntOfString s with
    | some n => .ok n
    | Option.none => .error "invalid literal for int"
  | _ => .error "int argument must be a number"

/-- The implicit `choices` mapping of `RedisBool`: `{True: 'Yes', False:
'No'}` (only the keys matter to `check_value`). -/
def boolChoiceKeys : List PyVal := [.bool true, .bool false]

/-- `RedisBool.clean`: `RedisNumber.clean`, then `int(validate_type(value,
bool))` on a non-`None` result. -/
def bool_clean (cfg : FieldCfg) (value : PyVal) : Except String PyVal := do
  let v ← number_clean cfg value
  if v.isNone then pure v
  else do
    let v ← validate_type v PyVal.isBool
    let n ← pyIntCoerce v
    pure (.int n)

/-- `RedisBool.deserialize_value`: `RedisNumber.deserialize_value`, then
`bool(validate_type(value, int))` on a non-`None` result (Python `bool(x)`
is truthiness). -/
def bool_deserialize (cfg : FieldCfg) (value : PyVal) (ignoreErrors : Bool) :
    Except String PyVal := do
  let v ← number_deserialize cfg value ignoreErrors
  if v.isNone then pure v
  else do
    let v ← validate_type v PyVal.isIntLike
    pure (.bool v.truthy)

/-! ### Fixed-format date and datetime strings

`RedisDateTime.clean` runs `value.replace(tzinfo=utc).strftime(
'%Y.%m.%d-%H:%M:%S+%Z')`: `replace` keeps the wall-clock components and
merely relabels the offset, and `%Z` of `timezone.utc` prints `UTC`, so the
serialized string is a function of the wall-clock components alone.  `%Y`
is modelled as 4-digit zero-padded (platform-dependent below year 1000;
theorems quantify over years 1000-9999 where every platform agrees).
`strptime` with the same format accepts exactly such strings, yields
microsecond 0 and tz `UTC`; calendar-level day-of-month validation is
elided (round-trip theorems quantify over valid inputs only). -/

def digitChar (n : Nat) : Char := Char.ofNat (48 + n)

def pad2 (n : Nat) : List Char := [digitChar (n / 10 % 10), digitChar (n % 10)]

def pad4 (n : Nat) : List Char :=
  [digitChar (n / 1000 % 10), digitChar (n / 100 % 10), digitChar (n / 10 % 10),
    digitChar (n % 10)]

/-- `strftime('%Y.%m.%d-%H:%M:%S+%Z')` after `replace(tzinfo=utc)`: only
the wall-clock components appear. -/
def formatDateTime (d : PyDateTime) : List Char :=
  pad4 d.year ++ '.' :: pad2 d.month ++ '.' :: pad2 d.day ++ '-' :: pad2 d.hour
    ++ ':' :: pad2 d.minute ++ ':' :: pad2 d.second ++ ['+', 'U', 'T', 'C']

/-- `date.strftime('%Y.%m.%d')`. -/
def formatDate (y m d : Nat) : List Char :=
  pad4 y ++ '.' :: pad2 m ++ '.' :: pad2 d

def readDigit (c : Char) : Option Nat :=
  if c.isDigit then some (c.toNat - 48) else Option.none

def read2 : List Char → Option (Nat × List Char)
  | a :: b :: rest =>
    match readDigit a, readDigit b with
    | some x, some y => some (x * 10 + y, rest)
    | _, _ => Option.none
  | _ => Option.none

def read4 : List Char → Option (Nat × List Char)
  | a :: b :: c :: d :: rest =>
    match readDigit a, readDigit b, readDigit c, readDigit d with
    | some w, some x, some y, some z => some (((w * 10 + x) * 10 + y) * 10 + z, rest)
    | _, _, _, _ => Option.none
  | _ => Option.none

def expectChar (c : Char) : List Char → Option (List Char)
  | x :: rest => if x = c then some rest else Option.none
  | [] => Option.none

/-- `datetime.strptime(s, '%Y.%m.%d-%H:%M:%S+%Z')` followed by
`replace(tzinfo=utc)`: accept exactly the fixed 4-2-2-2-2-2 layout with the
literal separators and the `UTC` zone name, range-check the calendar and
clock fields as `strptime`'s regular expressions do, set microsecond 0 and
tag UTC.  (`strptime` would also accept 1-digit day/month/clock fields;
`clean` never emits those, and no claim depends on them.) -/
def parseDateTime : List Char → Option PyDateTime
  | [y1, y2, y3, y4, q1, a1, a2, q2, b1, b2, q3, c1, c2, q4, d1, d2, q5, e1, e2, q6, u, t, z] =>
    match readDigit y1, readDigit y2, readDigit y3, readDigit y4, readDigit a1, readDigit a2,
        readDigit b1, readDigit b2, readDigit c1, readDigit c2, readDigit d1, readDigit d2,
        readDigit e1, readDigit e2 with
    | some w1, some w2, some w3, some w4, some m1, some m2, some n1, some n2, some h1,
        some h2, some i1, some i2, some s1, some s2 =>
      let y := ((w1 * 10 + w2) * 10 + w3) * 10 + w4
      let mo := m1 * 10 + m2
      let da := n1 * 10 + n2
      let ho := h1 * 10 + h2
      let mi := i1 * 10 + i2
      let se := s1 * 10 + s2
      if q1 = '.' && q2 = '.' && q3 = '-' && q4 = ':' && q5 = ':' && q6 = '+' && u = 'U' &&
          t = 'T' && z = 'C' && 1 ≤ mo && mo ≤ 12 && 1 ≤ da && da ≤ 31 && ho ≤ 23 &&
          mi ≤ 59 && se ≤ 59 then
        some ⟨y, mo, da, ho, mi, se, 0, some 0⟩
      else Option.none
    | _, _, _, _, _, _, _, _, _, _, _, _, _, _ => Option.none
  | _ => Option.none

/-- `datetime.strptime(s, '%Y.%m.%d').date()`: the fixed 4-2-2 layout with
literal dots, range-checked as `strptime` does. -/
def parseDate : List Char → Option PyDate
  | [y1, y2, y3, y4, q1, a1, a2, q2, b1, b2] =>
    match readDigit y1, readDigit y2, readDigit y3, readDigit y4, readDigit a1, readDigit a2,
        readDigit b1, readDigit b2 with
    | some w1, some w2, some w3, some w4, some m1, some m2, some n1, some n2 =>
      let y := ((w1 * 10 + w2) * 10 + w3) * 10 + w4
      let mo := m1 * 10 + m2
      let da := n1 * 10 + n2
      if q1 = '.' && q2 = '.' && 1 ≤ mo && mo ≤ 12 && 1 ≤ da && da ≤ 31 then
        some ⟨y, mo, da⟩
      else Option.none
    | _, _, _, _, _, _, _, _ => Option.none
  | _ => Option.none

/-- `RedisDateTime.clean`: `check_value`, then `validate_type(value,
datetime)` and formatting for a non-`None` value.  A truthy non-datetime is
rejected by `validate_type`; a falsy non-datetime slips through it and then
crashes on `.replace` with `AttributeError` — an error either way. -/
def datetime_clean (cfg : FieldCfg) (value : PyVal) : Except String PyVal := do
  let v ← check_value cfg value
  if v.isNone then pure v
  else
    match v with
    | .dt d => pure (.str (String.mk (formatDateTime d)))
    | w =>
      if w.truthy then Except.error "type not allowed"
      else Except.error "object has no attribute replace"

/-- `RedisDateTime.deserialize_value`: base deserialization, then
`validate_type(value, str)` and `strptime` for a non-`None` value (a falsy
non-string passes `validate_type` and then crashes inside `strptime`). -/
def datetime_deserialize (cfg : FieldCfg) (value : PyVal) (ignoreErrors : Bool) :
    Except String PyVal := do
  let v ← field_deserialize_value cfg value ignoreErrors
  if v.isNone then pure v
  else
    match v with
    | .str s =>
      match parseDateTime s.data with
      | some d => pure (.dt d)
      | Option.none => Except.error "does not match format"
    | w =>
      if w.truthy then Except.error "type not allowed"
      else Except.error "strptime argument must be str"

/-- `RedisDate.clean`: `check_value`, then `validate_type(value, date)` and
`strftime('%Y.%m.%d')` for a non-`None` value.  `datetime` is a subclass of
`date` in Python, so a datetime value also passes and its date components
are formatted. -/
def date_clean (cfg : FieldCfg) (value : PyVal) : Except String PyVal := do
  let v ← check_value cfg value
  if v.isNone then pure v
  else
    match v with
    | .date d => pure (.str (String.mk (formatDate d.year d.month d.day)))
    | .dt d => pure (.str (String.mk (formatDate d.year d.month d.day)))
    | w =>
      if w.truthy then Except.error "type not allowed"
      else Except.error "object has no attribute strftime"

/-- `RedisDate.deserialize_value`: base deserialization, then
`validate_type(value, str)` and `strptime(value, '%Y.%m.%d').date()` for a
non-`None` value. -/
def date_deserialize (cfg : FieldCfg) (value : PyVal) (ignoreErrors : Bool) :
    Except String PyVal := do
  let v ← field_deserialize_value cfg value ignoreErrors
  if v.isNone then pure v
  else
    match v with
    | .str s =>
      match parseDate s.data with
      | some d => pure (.date d)
      | Option.none => Except.error "does not match format"
    | w =>
      if w.truthy then Except.error "type not allowed"
      else Except.error "strptime argument must be str"

/-! ### Round-trip lemmas for the fixed-format strings -/

theorem readDigit_digitChar (x : Nat) (h : x < 10) : readDigit (digitChar x) = some x := by
  interval_cases x <;> decide

theorem read2_pad2 (n : Nat) (h : n < 100) (rest : List Char) :
    read2 (pad2 n ++ rest) = some (n, rest) := by
  have h1 : n / 10 % 10 < 10 := Nat.mod_lt _ (by norm_num)
  have h2 : n % 10 < 10 := Nat.mod_lt _ (by norm_num)
  have e : n / 10 % 10 * 10 + n % 10 = n := by omega
  simp [pad2, read2, readDigit_digitChar _ h1, readDigit_digitChar _ h2, e]

theorem read4_pad4 (n : Nat) (h : n < 10000) (rest : List Char) :
    read4 (pad4 n ++ rest) = some (n, rest) := by
  have h1 : n / 1000 % 10 < 10 := Nat.mod_lt _ (by norm_num)
  have h2 : n / 100 % 10 < 10 := Nat.mod_lt _ (by norm_num)
  have h3 : n / 10 % 10 < 10 := Nat.mod_lt _ (by norm_num)
  have h4 : n % 10 < 10 := Nat.mod_lt _ (by norm_num)
  have e : ((n / 1000 % 10 * 10 + n / 100 % 10) * 10 + n / 10 % 10) * 10 + n % 10 = n := by
    omega
  simp [pad4, read4, readDigit_digitChar _ h1, readDigit_digitChar _ h2,
    readDigit_digitChar _ h3, readDigit_digitChar _ h4, e]

theorem expectChar_cons (c : Char) (rest : List Char) :
    expectChar c (c :: rest) = some rest := by
  simp [expectChar]

theorem parse_formatDate (y m d : Nat) (hy1 : 1000 ≤ y) (hy2 : y ≤ 9999)
    (hm1 : 1 ≤ m) (hm2 : m ≤ 12) (hd1 : 1 ≤ d) (hd2 : d ≤ 31) :
    parseDate (formatDate y m d) = some ⟨y, m, d⟩ := by
  have hfmt : formatDate y m d = [digitChar (y / 1000 % 10), digitChar (y / 100 % 10),
      digitChar (y / 10 % 10), digitChar (y % 10), '.', digitChar (m / 10 % 10),
      digitChar (m % 10), '.', digitChar (d / 10 % 10), digitChar (d % 10)] := by
    simp [formatDate, pad4, pad2]
  rw [hfmt]
  simp only [parseDate, readDigit_digitChar (y / 1000 % 10) (by omega),
    readDigit_digitChar (y / 100 % 10) (by omega), readDigit_digitChar (y / 10 % 10) (by omega),
    readDigit_digitChar (y % 10) (by omega), readDigit_digitChar (m / 10 % 10) (by omega),
    readDigit_digitChar (m % 10) (by omega), readDigit_digitChar (d / 10 % 10) (by omega),
    readDigit_digitChar (d % 10) (by omega)]
  have ey : ((y / 1000 % 10 * 10 + y / 100 % 10) * 10 + y / 10 % 10) * 10 + y % 10 = y := by
    omega
  have em : m / 10 % 10 * 10 + m % 10 = m := by omega
  have ed : d / 10 % 10 * 10 + d % 10 = d := by omega
  simp only [ey, em, ed]
  have hc : 1 ≤ m ∧ m ≤ 12 ∧ 1 ≤ d ∧ d ≤ 31 := by omega
  simp [hc.1, hc.2.1, hc.2.2.1, hc.2.2.2]

theorem parse_formatDateTime (dt : PyDateTime) (hy1 : 1000 ≤ dt.year) (hy2 : dt.year ≤ 9999)
    (hm1 : 1 ≤ dt.month) (hm2 : dt.month ≤ 12) (hd1 : 1 ≤ dt.day) (hd2 : dt.day ≤ 31)
    (hh : dt.hour ≤ 23) (hmi : dt.minute ≤ 59) (hs : dt.second ≤ 59) :
    parseDateTime (formatDateTime dt) =
      some ⟨dt.year, dt.month, dt.day, dt.hour, dt.minute, dt.second, 0, some 0⟩ := by
  have hfmt : formatDateTime dt = [digitChar (dt.year / 1000 % 10),
      digitChar (dt.year / 100 % 10), digitChar (dt.year / 10 % 10), digitChar (dt.year % 10),
      '.', digitChar (dt.month / 10 % 10), digitChar (dt.month % 10),
      '.', digitChar (dt.day / 10 % 10), digitChar (dt.day % 10),
      '-', digitChar (dt.hour / 10 % 10), digitChar (dt.hour % 10),
      ':', digitChar (dt.minute / 10 % 10), digitChar (dt.minute % 10),
      ':', digitChar (dt.second / 10 % 10), digitChar (dt.second % 10),
      '+', 'U', 'T', 'C'] := by
    simp [formatDateTime, pad4, pad2]
  rw [hfmt]
  simp only [parseDateTime, readDigit_digitChar (dt.year / 1000 % 10) (by omega),
    readDigit_digitChar (dt.year / 100 % 10) (by omega),
    readDigit_digitChar (dt.year / 10 % 10) (by omega),
    readDigit_digitChar (dt.year % 10) (by omega),
    readDigit_digitChar (dt.month / 10 % 10) (by omega),
    readDigit_digitChar (dt.month % 10) (by omega),
    readDigit_digitChar (dt.day / 10 % 10) (by omega),
    readDigit_digitChar (dt.day % 10) (by omega),
    readDigit_digitChar (dt.hour / 10 % 10) (by omega),
    readDigit_digitChar (dt.hour % 10) (by omega),
    readDigit_digitChar (dt.minute / 10 % 10) (by omega),
    readDigit_digitChar (dt.minute % 10) (by omega),
    readDigit_digitChar (dt.second / 10 % 10) (by omega),
    readDigit_digitChar (dt.second % 10) (by omega)]
  have ey : ((dt.year / 1000 % 10 * 10 + dt.year / 100 % 10) * 10 + dt.year / 10 % 10) * 10 +
      dt.year % 10 = dt.year := by omega
  have em : dt.month / 10 % 10 * 10 + dt.month % 10 = dt.month := by omega
  have ed : dt.day / 10 % 10 * 10 + dt.day % 10 = dt.day := by omega
  have eh : dt.hour / 10 % 10 * 10 + dt.hour % 10 = dt.hour := by omega
  have ei : dt.minute / 10 % 10 * 10 + dt.minute % 10 = dt.minute := by omega
  have es : dt.second / 10 % 10 * 10 + dt.second % 10 = dt.second := by omega
  simp only [ey, em, ed, eh, ei, es]
  simp [hm1, hm2, hd1, hd2, hh, hmi, hs]

/-! ### Claim C2 — serialization round trip -/

/-- A field configuration with no default, no choices, and `null=True`
(the constructor defaults of `RedisField`). -/
def rtCfg : FieldCfg := ⟨PyVal.none, Option.none, true⟩

/-- The configuration `RedisBool.__init__` forces: `choices={True: 'Yes',
False: 'No'}`. -/
def boolCfg : FieldCfg := ⟨PyVal.none, some boolChoiceKeys, true⟩

/-- Calendar values on which every platform's `%Y` agrees and the clock
fields are in range. -/
def validDate (d : PyDate) : Bool :=
  1000 ≤ d.year && d.year ≤ 9999 && 1 ≤ d.month && d.month ≤ 12 && 1 ≤ d.day && d.day ≤ 31

def validWallClock (d : PyDateTime) : Bool :=
  1000 ≤ d.year && d.year ≤ 9999 && 1 ≤ d.month && d.month ≤ 12 && 1 ≤ d.day && d.day ≤ 31
    && d.hour ≤ 23 && d.minute ≤ 59 && d.second ≤ 59

/-- The claimed round trip fails for `DateTime` values: sub-second
precision is dropped by the `%Y.%m.%d-%H:%M:%S+%Z` format.  At the
concrete aware value 2021-03-04 05:06:07.500000+00:00 the serialized form
deserializes to 2021-03-04 05:06:07+00:00, which Python `==` distinguishes
from the original (the instants differ by 500000 microseconds), refuting
`deserialize(clean(v)) == v` for every valid `v` of every field kind. -/
theorem C2_counterexample_datetime_microseconds :
    datetime_clean rtCfg (.dt ⟨2021, 3, 4, 5, 6, 7, 500000, some 0⟩) =
      .ok (.str "2021.03.04-05:06:07+UTC") ∧
    datetime_deserialize rtCfg (.str "2021.03.04-05:06:07+UTC") true =
      .ok (.dt ⟨2021, 3, 4, 5, 6, 7, 0, some 0⟩) ∧
    pyEq (.dt ⟨2021, 3, 4, 5, 6, 7, 0, some 0⟩) (.dt ⟨2021, 3, 4, 5, 6, 7, 500000, some 0⟩)
      = false := by
  refine ⟨rfl, rfl, ?_⟩
  simp [pyEq, dtEq, toInstantUs, daysFromCivil]

theorem validDate_bounds (d : PyDate) (h : validDate d = true) :
    1000 ≤ d.year ∧ d.year ≤ 9999 ∧ 1 ≤ d.month ∧ d.month ≤ 12 ∧ 1 ≤ d.day ∧ d.day ≤ 31 := by
  simp only [validDate, Bool.and_eq_true, decide_eq_true_eq] at h
  omega

theorem validWallClock_bounds (d : PyDateTime) (h : validWallClock d = true) :
    1000 ≤ d.year ∧ d.year ≤ 9999 ∧ 1 ≤ d.month ∧ d.month ≤ 12 ∧ 1 ≤ d.day ∧ d.day ≤ 31 ∧
      d.hour ≤ 23 ∧ d.minute ≤ 59 ∧ d.second ≤ 59 := by
  simp only [validWallClock, Bool.and_eq_true, decide_eq_true_eq] at h
  omega

/-- C2 (amended): the round trip `deserialize(clean(v)) == v` holds for the
String, Number (integer values), Boolean and Date field kinds on all valid
values, and for DateTime exactly on values already tagged UTC with zero
microseconds; a non-UTC offset is reinterpreted rather than converted and
sub-second precision is dropped (refuted by the counterexample), and the
Decimal and Json kinds likewise lose information (float conversion, JSON
key coercion), so the unrestricted claim fails. -/
theorem C2_round_trip_restricted :
    (∀ s : String, (string_clean rtCfg (.str s)).bind
        (fun w => string_deserialize rtCfg w true) = .ok (.str s)) ∧
    (∀ n : Int, (number_clean rtCfg (.int n)).bind
        (fun w => number_deserialize rtCfg w true) = .ok (.int n)) ∧
    (∀ b : Bool, (bool_clean boolCfg (.bool b)).bind
        (fun w => bool_deserialize boolCfg w true) = .ok (.bool b)) ∧
    (∀ d : PyDate, validDate d = true → (date_clean rtCfg (.date d)).bind
        (fun w => date_deserialize rtCfg w true) = .ok (.date d)) ∧
    (∀ d : PyDateTime, validWallClock d = true → d.microsecond = 0 → d.tzOffsetMin = some 0 →
      (datetime_clean rtCfg (.dt d)).bind
        (fun w => datetime_deserialize rtCfg w true) = .ok (.dt d)) := by
  refine ⟨fun s => rfl, fun n => ?_, fun b => ?_, fun d hd => ?_, fun d hd hus htz => ?_⟩
  · simp [number_clean, check_value, validate_type, number_deserialize,
      field_deserialize_value, rtCfg, PyVal.isNone, PyVal.isIntLike, PyVal.truthy,
      except_ok_bind, except_error_bind, except_pure_eq_ok, except_bind_ok, except_bind_error]
  · cases b <;> rfl
  · obtain ⟨h1, h2, h3, h4, h5, h6⟩ := validDate_bounds d hd
    obtain ⟨y, mo, da⟩ := d
    simp only at h1 h2 h3 h4 h5 h6
    simp [date_clean, check_value, date_deserialize, field_deserialize_value, rtCfg,
      PyVal.isNone, except_ok_bind, except_error_bind, except_pure_eq_ok, except_bind_ok, except_bind_error,
      parse_formatDate y mo da h1 h2 h3 h4 h5 h6]
  · obtain ⟨h1, h2, h3, h4, h5, h6, h7, h8, h9⟩ := validWallClock_bounds d hd
    obtain ⟨y, mo, da, ho, mi, se, us, tz⟩ := d
    simp only at h1 h2 h3 h4 h5 h6 h7 h8 h9 hus htz
    subst hus htz
    simp [datetime_clean, check_value, datetime_deserialize, field_deserialize_value, rtCfg,
      PyVal.isNone, except_ok_bind, except_error_bind, except_pure_eq_ok, except_bind_ok, except_bind_error,
      parse_formatDateTime ⟨y, mo, da, ho, mi, se, 0, some 0⟩ h1 h2 h3 h4 h5 h6 h7 h8 h9]

/-- Witness for `C2_round_trip_restricted` at concrete inputs, discharging
the validity hypotheses. -/
theorem C2_round_trip_restricted_witness :
    (date_clean rtCfg (.date ⟨2022, 12, 31⟩)).bind
        (fun w => date_deserialize rtCfg w true) = .ok (.date ⟨2022, 12, 31⟩) ∧
    (datetime_clean rtCfg (.dt ⟨2022, 1, 2, 3, 4, 5, 0, some 0⟩)).bind
        (fun w => datetime_deserialize rtCfg w true) =
      .ok (.dt ⟨2022, 1, 2, 3, 4, 5, 0, some 0⟩) :=
  ⟨C2_round_trip_restricted.2.2.2.1 ⟨2022, 12, 31⟩ (by decide),
    C2_round_trip_restricted.2.2.2.2 ⟨2022, 1, 2, 3, 4, 5, 0, some 0⟩ (by decide) rfl rfl⟩

/-! ### Claim C6 — DateTime serialization and timezone handling -/

/-- C6 is refuted: `clean` uses `replace(tzinfo=utc)`, which relabels the
wall clock instead of converting it, so the same instant written with two
different offsets (12:00+00:00 and 13:00+01:00) serializes to two
different strings. -/
theorem C6_counterexample_same_instant_different_strings :
    dtEq ⟨2021, 6, 1, 12, 0, 0, 0, some 0⟩ ⟨2021, 6, 1, 13, 0, 0, 0, some 60⟩ = true ∧
    datetime_clean rtCfg (.dt ⟨2021, 6, 1, 12, 0, 0, 0, some 0⟩) =
      .ok (.str "2021.06.01-12:00:00+UTC") ∧
    datetime_clean rtCfg (.dt ⟨2021, 6, 1, 13, 0, 0, 0, some 60⟩) =
      .ok (.str "2021.06.01-13:00:00+UTC") ∧
    "2021.06.01-12:00:00+UTC" ≠ "2021.06.01-13:00:00+UTC" := by
  refine ⟨?_, rfl, rfl, by decide⟩
  simp [dtEq, toInstantUs, daysFromCivil]

/-- C6 (amended): `clean` serializes the wall-clock components unchanged
and tags the string `+UTC` — the original offset is discarded without
conversion, so the serialized form is independent of the value's
utcoffset — and `deserialize_value` parses that format back with
microsecond 0 and the UTC tag. -/
theorem C6_wall_clock_reinterpreted_as_utc :
    (∀ d : PyDateTime, ∀ o : Option Int,
      datetime_clean rtCfg (.dt { d with tzOffsetMin := o }) =
        datetime_clean rtCfg (.dt d)) ∧
    (∀ d : PyDateTime, validWallClock d = true →
      datetime_deserialize rtCfg (.str (String.mk (formatDateTime d))) true =
        .ok (.dt ⟨d.year, d.month, d.day, d.hour, d.minute, d.second, 0, some 0⟩)) := by
  constructor
  · intro d o; rfl
  · intro d hd
    obtain ⟨h1, h2, h3, h4, h5, h6, h7, h8, h9⟩ := validWallClock_bounds d hd
    simp [datetime_deserialize, field_deserialize_value, PyVal.isNone, except_ok_bind,
      except_error_bind, except_pure_eq_ok, parse_formatDateTime d h1 h2 h3 h4 h5 h6 h7 h8 h9]

/-- Witness for `C6_wall_clock_reinterpreted_as_utc`: the offset-dropping
clause at offset +540 minutes, and the parsing clause at a concrete valid
value. -/
theorem C6_wall_clock_reinterpreted_as_utc_witness :
    datetime_clean rtCfg (.dt ⟨2021, 6, 1, 12, 0, 0, 0, some 540⟩) =
      datetime_clean rtCfg (.dt ⟨2021, 6, 1, 12, 0, 0, 0, some 0⟩) ∧
    datetime_deserialize rtCfg
        (.str (String.mk (formatDateTime ⟨2021, 6, 1, 12, 0, 0, 0, some 540⟩))) true =
      .ok (.dt ⟨2021, 6, 1, 12, 0, 0, 0, some 0⟩) :=
  ⟨C6_wall_clock_reinterpreted_as_utc.1 ⟨2021, 6, 1, 12, 0, 0, 0, some 0⟩ (some 540),
    C6_wall_clock_reinterpreted_as_utc.2 ⟨2021, 6, 1, 12, 0, 0, 0, some 540⟩ (by decide)⟩

/-! ### Claim C4 — strictness of Number field validation -/

/-- C4 is refuted at falsy inputs: `validate_type` passes any falsy value
unchanged (`if not value or isinstance(...)`), so a Number field's `clean`
and `deserialize_value` both accept the empty list — a non-numeric, falsy
value the claim says must be rejected. -/
theorem C4_counterexample_falsy_list_accepted :
    number_clean rtCfg (.list []) = .ok (.list []) ∧
    number_deserialize rtCfg (.list []) true = .ok (.list []) := ⟨rfl, rfl⟩

/-- C4 (amended): a Number field rejects truthy values that are not
int/float, but falsy values of any type slip through `validate_type`
unchanged: `clean` accepts every falsy value, and `deserialize_value`
accepts falsy non-strings; strings are parsed numerically during
deserialization (parsable ones are accepted and converted, unparsable ones
— including the empty string — raise). -/
theorem C4_truthy_nonnumeric_rejected_falsy_passed :
    (∀ v : PyVal, v.truthy = true → v.isIntLike = false →
      number_clean rtCfg v = .error "type not allowed") ∧
    (∀ v : PyVal, v.truthy = false → number_clean rtCfg v = .ok v) ∧
    (∀ v : PyVal, v.truthy = true → v.isIntLike = false → v.isStr = false →
      number_deserialize rtCfg v true = .error "type not allowed") ∧
    (∀ v : PyVal, v.truthy = false → v.isStr = false →
      number_deserialize rtCfg v true = .ok v) ∧
    (number_deserialize rtCfg (.str "") true = .error "invalid literal for int") ∧
    (∀ (s : String) (n : Int), s.data.contains '.' = false → pyIntOfString s = some n →
      number_deserialize rtCfg (.str s) true = .ok (.int n)) := by
  refine ⟨fun v ht hn => ?_, fun v ht => ?_, fun v ht hn hs => ?_, fun v ht hs => ?_,
    ?_, fun s n h1 h2 => ?_⟩
  · cases v <;> simp_all [number_clean, check_value, validate_type, rtCfg, PyVal.isNone,
      PyVal.truthy, PyVal.isIntLike, except_bind_ok, except_bind_error, except_ok_bind,
      except_error_bind, except_pure_eq_ok]
  · cases v <;> simp_all [number_clean, check_value, validate_type, rtCfg, PyVal.isNone,
      PyVal.truthy, PyVal.isIntLike, except_bind_ok, except_bind_error, except_ok_bind,
      except_error_bind, except_pure_eq_ok]
  · cases v <;> simp_all [number_deserialize, field_deserialize_value, validate_type, rtCfg,
      PyVal.isNone, PyVal.truthy, PyVal.isIntLike, PyVal.isStr, except_bind_ok,
      except_bind_error, except_ok_bind, except_error_bind, except_pure_eq_ok]
  · cases v <;> simp_all [number_deserialize, field_deserialize_value, validate_type, rtCfg,
      PyVal.isNone, PyVal.truthy, PyVal.isIntLike, PyVal.isStr, except_bind_ok,
      except_bind_error, except_ok_bind, except_error_bind, except_pure_eq_ok]
  · have hc : ("".data.contains '.') = false := by decide
    have hp : pyIntOfString "" = Option.none := rfl
    simp [number_deserialize, field_deserialize_value, rtCfg, PyVal.isNone, hc, hp,
      except_bind_ok, except_bind_error, except_ok_bind, except_error_bind, except_pure_eq_ok]
  · simp [number_deserialize, field_deserialize_value, validate_type, rtCfg, PyVal.isNone,
      PyVal.truthy, PyVal.isIntLike, h1, h2, except_bind_ok, except_bind_error,
      except_ok_bind, except_error_bind, except_pure_eq_ok]
    simpa using h1

/-- Witness for `C4_truthy_nonnumeric_rejected_falsy_passed` at concrete
inputs. -/
theorem C4_witness :
    number_clean rtCfg (.str "x") = .error "type not allowed" ∧
    number_clean rtCfg (.int 0) = .ok (.int 0) ∧
    number_deserialize rtCfg (.list [.int 1]) true = .error "type not allowed" ∧
    number_deserialize rtCfg (.bool false) true = .ok (.bool false) ∧
    number_deserialize rtCfg (.str "42") true = .ok (.int 42) :=
  ⟨C4_truthy_nonnumeric_rejected_falsy_passed.1 (.str "x") rfl rfl,
    C4_truthy_nonnumeric_rejected_falsy_passed.2.1 (.int 0) rfl,
    C4_truthy_nonnumeric_rejected_falsy_passed.2.2.1 (.list [.int 1]) rfl rfl rfl,
    C4_truthy_nonnumeric_rejected_falsy_passed.2.2.2.1 (.bool false) rfl rfl,
    C4_truthy_nonnumeric_rejected_falsy_passed.2.2.2.2.2 "42" 42 (by decide) rfl⟩

/-! ### Query and filter engine (`core.py` 52-239)

`BaseRedisManager.FILTER_METHODS` is a table of two-argument Python
lambdas over dynamically typed values; they are modelled over `PyVal` with
Python's `TypeError`/`AttributeError` surfacing as `Except.error`.  String
methods are modelled over the character list (ASCII case folding; Python's
full Unicode case folding is not modelled, no claim depends on it), and
Python list-vs-list ordering comparisons are left out of `pyCompare` (again
unused by every claim). -/

def FILTER_KEYS : List String :=
  ["exact", "iexact", "contains", "in", "gt", "gte", "lt", "lte", "startswith",
    "endswith", "istartswith", "iendswith", "range", "isnull"]

/-- Comparison of datetimes: both aware compare by instant; both naive by
wall clock (modelled as the instant at offset 0, which orders in-range wall
clocks lexicographically); mixed naive/aware raises `TypeError`. -/
def dtCompare (a b : PyDateTime) : Except String Ordering :=
  match a.tzOffsetMin, b.tzOffsetMin with
  | some oa, some ob => .ok (compare (toInstantUs a oa) (toInstantUs b ob))
  | Option.none, Option.none => .ok (compare (toInstantUs a 0) (toInstantUs b 0))
  | _, _ => .error "cannot compare offset-naive and offset-aware datetimes"

/-- Python `<`/`>` rich comparison on the modelled universe: numbers with
numbers (bool counts as int), strings with strings, datetimes with
datetimes; everything else — `None` included — raises `TypeError`. -/
def pyCompare : PyVal → PyVal → Except String Ordering
  | .int a, .int b => .ok (compare a b)
  | .int a, .bool b => .ok (compare a (if b then (1 : Int) else 0))
  | .bool a, .int b => .ok (compare (if a then (1 : Int) else 0) b)
  | .bool a, .bool b => .ok (compare (if a then (1 : Int) else 0) (if b then (1 : Int) else 0))
  | .str a, .str b => .ok (compare a b)
  | .dt a, .dt b => dtCompare a b
  | _, _ => .error "not supported between instances"

/-- List-of-characters helper for `str.startswith`. -/
def isPre : List Char → List Char → Bool
  | [], _ => true
  | _ :: _, [] => false
  | a :: as, b :: bs => a == b && isPre as bs

/-- Substring scan for Python `sub in s` on strings. -/
def isSub (sub : List Char) : List Char → Bool
  | [] => isPre sub []
  | c :: cs => isPre sub (c :: cs) || isSub sub cs

/-- ASCII case folding for `str.lower()`. -/
def lowerChar (c : Char) : Char :=
  if 'A' ≤ c && c ≤ 'Z' then Char.ofNat (c.toNat + 32) else c

def lowerStr (s : String) : List Char := s.data.map lowerChar

/-- Python `x in y`: substring test on strings, elementwise `==` on lists;
a non-iterable (None included) raises `TypeError`. -/
def pyIn (x y : PyVal) : Except String Bool :=
  match y with
  | .str t =>
    match x with
    | .str sub => .ok (isSub sub.data t.data)
    | _ => .error "in string requires string as left operand"
  | .list xs => .ok (xs.any (fun e => pyEq x e))
  | _ => .error "argument is not iterable"

/-- The fourteen `FILTER_METHODS` lambdas.  Note `range`: the code runs
`x in range(y)`, so the operand is a single integer upper bound (span
`0 ≤ x < y`); a non-integer operand raises `TypeError`, and a non-integer
record value is simply not a member. -/
def filterMethod (op : String) (x y : PyVal) : Except String Bool :=
  if op = "exact" then .ok (pyEq x y)
  else if op = "iexact" then
    match x, y with
    | .str a, .str b => .ok (lowerStr a == lowerStr b)
    | _, _ => .error "object has no attribute lower"
  else if op = "contains" then pyIn x y
  else if op = "in" then pyIn x y
  else if op = "gt" then (pyCompare x y).map (fun o => o == .gt)
  else if op = "gte" then (pyCompare x y).map (fun o => o == .gt || o == .eq)
  else if op = "lt" then (pyCompare x y).map (fun o => o == .lt)
  else if op = "lte" then (pyCompare x y).map (fun o => o == .lt || o == .eq)
  else if op = "startswith" then
    match x, y with
    | .str a, .str b => .ok (isPre b.data a.data)
    | _, _ => .error "object has no attribute startswith"
  else if op = "endswith" then
    match x, y with
    | .str a, .str b => .ok (isPre b.data.reverse a.data.reverse)
    | _, _ => .error "object has no attribute endswith"
  else if op = "istartswith" then
    match x, y with
    | .str a, .str b => .ok (isPre (lowerStr b) (lowerStr a))
    | _, _ => .error "object has no attribute lower"
  else if op = "iendswith" then
    match x, y with
    | .str a, .str b => .ok (isPre (lowerStr b).reverse (lowerStr a).reverse)
    | _, _ => .error "object has no attribute lower"
  else if op = "range" then
    match y.asInt? with
    | some n =>
      .ok (match x.asInt? with
        | some m => decide (0 ≤ m ∧ m < n)
        | Option.none => false)
    | Option.none => .error "object cannot be interpreted as an integer"
  else if op = "isnull" then .ok (pyEq (.bool x.isNone) y)
  else .error "Filter not supported"

/-- `BaseRedisManager._filter_value`: reject an unrecognized operator, give
a datetime operand the UTC label, and apply the table entry. -/
def filter_value (value : PyVal) (filterType : String) (filterBy : PyVal) :
    Except String Bool :=
  if !FILTER_KEYS.contains filterType then .error "Filter not supported"
  else
    let filterBy := match filterBy with
      | .dt d => .dt { d with tzOffsetMin := some 0 }
      | w => w
    filterMethod filterType value filterBy

/-- Python `param.split('__')` over the character list. -/
def splitDunder : List Char → List (List Char)
  | [] => [[]]
  | '_' :: '_' :: cs => [] :: splitDunder cs
  | c :: cs =>
    match splitDunder cs with
    | r :: rs => (c :: r) :: rs
    | [] => [[c]]

/-- `BaseRedisManager._split_filtering`: split the filter argument on
`__`; when the last segment is a recognized operator it is split off,
otherwise the whole split is a nested field path filtered with `exact`. -/
def split_filtering (filterParam : String) : List String × String :=
  let parts := (splitDunder filterParam.data).map String.mk
  match parts.getLast? with
  | some last =>
    if FILTER_KEYS.contains last then (parts.dropLast, last) else (parts, "exact")
  | Option.none => (parts, "exact")

/-- Attribute lookup on a model instance's field map. -/
def lookupField (name : String) : List (String × PyVal) → Option PyVal
  | [] => Option.none
  | (k, v) :: rest => if k = name then some v else lookupField name rest

/-- The chain-walking loop of `BaseRedisManager._filter`: a `None` link is
skipped (`continue`), leaving the value `None`; a non-instance or a missing
attribute raises; otherwise the walk descends into the referenced
instance. -/
def resolveChain : PyVal → List String → Except String PyVal
  | value, [] => .ok value
  | value, name :: rest =>
    if value.isNone then resolveChain value rest
    else
      match value with
      | .inst _ fields =>
        match lookupField name fields with
        | some v => resolveChain v rest
        | Option.none => .error "instance has no field"
      | _ => .error "value has no field"

/-- `BaseRedisManager._filter`: walk the nested path, give both sides the
UTC label when both are datetimes, then apply `_filter_value`. -/
def filter_nested (value : PyVal) (nestedFieldNames : List String) (filterType : String)
    (filterBy : PyVal) : Except String Bool := do
  let value ← resolveChain value nestedFieldNames
  let pair := match value, filterBy with
    | .dt a, .dt b => (PyVal.dt { a with tzOffsetMin := some 0 },
        PyVal.dt { b with tzOffsetMin := some 0 })
    | a, b => (a, b)
  filter_value pair.1 filterType pair.2

/-- One keyword filter argument: its raw name and its operand. -/
structure FilterArg where
  param : String
  operand : PyVal

/-- One iteration of the `_filter_field_name` loop: split the filter
argument, and when its top-level path segment names the field under
examination, evaluate the predicate and append the verdict to
`allowed_list` (an empty path raises `IndexError` at
`fields_to_filter[0]`). -/
def filter_step (fieldName : String) (value : PyVal) (acc : List Bool) (fa : FilterArg) :
    Except String (List Bool) := do
  let parts := split_filtering fa.param
  match parts.1 with
  | [] => Except.error "list index out of range"
  | top :: rest =>
    if top = fieldName then do
      let b ← filter_nested value rest parts.2 fa.operand
      pure (acc ++ [b])
    else pure acc

/-- `BaseRedisManager._filter_field_name`: run `filter_step` over every
filter argument starting from `allowed_list = [True]` and conjoin the
collected verdicts (`all(allowed_list)`). -/
def filter_field_name (fieldName : String) (value : PyVal) (rawFilters : List FilterArg) :
    Except String Bool := do
  let allowedList ← rawFilters.foldlM (filter_step fieldName value) [true]
  pure (allowedList.all id)

/-- The per-record loop of `BaseRedisManager._get_model_instances`: fields
are deserialized and filtered in order, and the record is abandoned at the
first failing field (`if not allowed: break`), leaving the remaining
fields untouched.  Returns the verdict together with the deserialized
fields accumulated before the break. -/
def process_record (deser : String → PyVal → Except String PyVal)
    (filters : List FilterArg) :
    List (String × PyVal) → Except String (Bool × List (String × PyVal))
  | [] => .ok (true, [])
  | (fieldName, raw) :: rest => do
    let value ← deser fieldName raw
    let allowed ← filter_field_name fieldName value filters
    if allowed then do
      let tail ← process_record deser filters rest
      pure (tail.1, (fieldName, value) :: tail.2)
    else
      pure (false, [(fieldName, value)])

/-- One iteration of the record loop of `_get_model_instances`: process a
record and append it to the result when every predicate passed. -/
def gather_record (deser : String → PyVal → Except String PyVal)
    (filters : List FilterArg) (acc : List (List (String × PyVal)))
    (rec : List (String × PyVal)) : Except String (List (List (String × PyVal))) := do
  let r ← process_record deser filters rec
  pure (if r.1 then acc ++ [r.2] else acc)

/-- `BaseRedisManager._get_model_instances`, with key enumeration, bulk
fetch and JSON decoding elided: each stored record is a field map in
schema order, `deser` stands for `_deserialize_instance_field`, and the
records passing every predicate are returned in store order. -/
def get_model_instances (deser : String → PyVal → Except String PyVal)
    (records : List (List (String × PyVal))) (filters : List FilterArg) :
    Except String (List (List (String × PyVal))) :=
  records.foldlM (gather_record deser filters) []

/-- The identity deserializer: the `_deserialize_instance_field` path for a
field value that needs no conversion. -/
def idDeser : String → PyVal → Except String PyVal := fun _ v => .ok v

/-! ### Claim C8 — the `range` operator -/

/-- C8 is refuted: the lambda is `x in range(y)`, so a (lower, upper) span
operand is not supported — Python's `range` cannot interpret the pair and
raises `TypeError`, instead of testing 2 ≤ 3 < 5 as the claim asserts. -/
theorem C8_counterexample_pair_span_raises :
    filter_value (.int 3) "range" (.list [.int 2, .int 5]) =
      .error "object cannot be interpreted as an integer" := rfl

/-- C8 (amended): the `range` operator takes a single integer operand `n`
and matches exactly the integers of Python's `range(n)`, i.e. `0 ≤ x < n`;
a non-integer operand raises `TypeError`, and a non-integer record value
simply does not match. -/
theorem C8_range_is_zero_based_int_span :
    (∀ x n : Int, filter_value (.int x) "range" (.int n) = .ok (decide (0 ≤ x ∧ x < n))) ∧
    (∀ s : String, filter_value (.int 3) "range" (.str s) =
      .error "object cannot be interpreted as an integer") ∧
    (∀ s : String, filter_value (.str s) "range" (.int 5) = .ok false) :=
  ⟨fun _ _ => rfl, fun _ => rfl, fun _ => rfl⟩

/-! ### Claim C5 — unrecognized filter operators -/

/-- C5 is refuted: a filter whose suffix is not a recognized operator does
not fail up front — `_split_filtering` treats the suffix as one more link
of a nested field path with operator `exact`, so with no stored records
(or with a `None` value in the filtered field) the query returns an empty
result without raising. -/
theorem C5_counterexample_unknown_operator_no_error :
    get_model_instances idDeser [] [⟨"age__foo", .int 5⟩] = .ok [] ∧
    get_model_instances idDeser [[("age", PyVal.none)]] [⟨"age__foo", .int 5⟩] = .ok [] :=
  ⟨rfl, rfl⟩

/-- C5 (amended): an unrecognized operator suffix is parsed as a nested
field path filtered with `exact`; the query then raises only when that
path is evaluated against a record whose field holds a non-null,
non-reference value, and with no records it silently returns the empty
result. -/
theorem C5_unknown_operator_parsed_as_nested_path (v : PyVal)
    (hn : v.isNone = false) (hi : v.isInst = false) :
    split_filtering "age__foo" = (["age", "foo"], "exact") ∧
    get_model_instances idDeser [[("age", v)]] [⟨"age__foo", .int 5⟩] =
      .error "value has no field" ∧
    get_model_instances idDeser [] [⟨"age__foo", .int 5⟩] = .ok [] := by
  refine ⟨rfl, ?_, rfl⟩
  cases v
  case none => simp [PyVal.isNone] at hn
  case inst => simp [PyVal.isInst] at hi
  all_goals rfl

/-- Witness for `C5_unknown_operator_parsed_as_nested_path` at the concrete
record value 30. -/
theorem C5_unknown_operator_witness :
    split_filtering "age__foo" = (["age", "foo"], "exact") ∧
    get_model_instances idDeser [[("age", .int 30)]] [⟨"age__foo", .int 5⟩] =
      .error "value has no field" ∧
    get_model_instances idDeser [] [⟨"age__foo", .int 5⟩] = .ok [] :=
  C5_unknown_operator_parsed_as_nested_path (.int 30) rfl rfl

/-! ### Claim C7 — null links in nested filter paths -/

/-- A deserializer that fails on field `b`, used to observe that a record
abandoned by an earlier failing predicate never deserializes its remaining
fields. -/
def deserFailOnB : String → PyVal → Except String PyVal :=
  fun name v => if name = "b" then .error "deserialization reached field b" else .ok v

/-- C7 is refuted: when the chain resolves to `None`, `_filter` still
applies the operator to `None`; for an ordering operator such as `gt` that
is `None > operand`, which raises `TypeError` instead of treating the
predicate as non-matching. -/
theorem C7_counterexample_null_chain_gt_raises :
    filter_nested PyVal.none ["g"] "gt" (.int 5) =
      .error "not supported between instances" := rfl

/-- C7 (amended): a `None` anywhere along the chain short-circuits the walk
with value `None` and the operator is then applied to `None`: `exact`
yields an ordinary non-match (and `isnull` matches a `True` operand), but
ordering operators raise `TypeError`; moreover a failing predicate
abandons the whole record — the remaining fields and their predicates are
not evaluated. -/
theorem C7_null_chain_then_operator_on_none :
    (∀ ns : List String, resolveChain PyVal.none ns = .ok PyVal.none) ∧
    (∀ (ns : List String) (y : PyVal),
      filter_nested PyVal.none ns "exact" y = .ok (pyEq PyVal.none y)) ∧
    (∀ ns : List String, filter_nested PyVal.none ns "isnull" (.bool true) = .ok true) ∧
    (∀ (ns : List String) (k : Int), filter_nested PyVal.none ns "gt" (.int k) =
      .error "not supported between instances") ∧
    process_record deserFailOnB [⟨"a", .int 5⟩] [("a", PyVal.none), ("b", .int 0)] =
      .ok (false, [("a", PyVal.none)]) := by
  have hchain : ∀ ns : List String, resolveChain PyVal.none ns = .ok PyVal.none := by
    intro ns
    induction ns with
    | nil => rfl
    | cons n rest ih => simpa [resolveChain, PyVal.isNone] using ih
  refine ⟨hchain, fun ns y => ?_, fun ns => ?_, fun ns k => ?_, rfl⟩
  · rw [filter_nested, hchain ns]
    cases y <;> rfl
  · rw [filter_nested, hchain ns]
    rfl
  · rw [filter_nested, hchain ns]
    rfl

/-! ### Claim C10 — filters naming an absent field -/

/-- A filter argument's top-level path segment is a nonempty path whose
head avoids every name in `names` (the nonemptiness rules out the
`fields_to_filter[0]` `IndexError`, which only a filter argument that is
itself a bare operator name could trigger). -/
def avoidsB (names : List String) (fa : FilterArg) : Bool :=
  match (split_filtering fa.param).1 with
  | [] => false
  | top :: _ => !names.contains top

theorem filter_step_skips (fieldName : String) (value : PyVal) (acc : List Bool)
    (fa : FilterArg) (h : avoidsB [fieldName] fa = true) :
    filter_step fieldName value acc fa = .ok acc := by
  unfold avoidsB at h
  cases hp : (split_filtering fa.param).1 with
  | nil => rw [hp] at h; simp at h
  | cons top rest =>
    rw [hp] at h
    have hne : top ≠ fieldName := by
      simp only [Bool.not_eq_true'] at h
      intro he
      subst he
      simp [List.contains] at h
    simp only [filter_step, hp]
    rw [if_neg hne]
    rfl

theorem foldlM_filter_step_skips (fieldName : String) (value : PyVal) :
    ∀ (filters : List FilterArg) (acc : List Bool),
      (∀ fa ∈ filters, avoidsB [fieldName] fa = true) →
      filters.foldlM (filter_step fieldName value) acc = .ok acc := by
  intro filters
  induction filters with
  | nil => intro acc _; rfl
  | cons fa fas ih =>
    intro acc h
    rw [List.foldlM_cons, filter_step_skips fieldName value acc fa (h fa (by simp))]
    simpa [except_ok_bind] using ih acc (fun g hg => h g (List.mem_cons_of_mem _ hg))

theorem filter_field_name_skips (fieldName : String) (value : PyVal)
    (filters : List FilterArg) (h : ∀ fa ∈ filters, avoidsB [fieldName] fa = true) :
    filter_field_name fieldName value filters = .ok true := by
  simp only [filter_field_name]
  rw [foldlM_filter_step_skips fieldName value filters [true] h]
  rfl

theorem process_record_skips (filters : List FilterArg) :
    ∀ rec : List (String × PyVal),
      (∀ fa ∈ filters, ∀ p ∈ rec, avoidsB [p.1] fa = true) →
      process_record idDeser filters rec = .ok (true, rec) := by
  intro rec
  induction rec with
  | nil => intro _; rfl
  | cons p ps ih =>
    intro h
    obtain ⟨name, raw⟩ := p
    simp only [process_record, idDeser, except_ok_bind]
    rw [filter_field_name_skips name raw filters
      (fun fa hfa => h fa hfa (name, raw) (List.mem_cons_self _ _))]
    simp only [except_ok_bind, if_true]
    rw [ih (fun fa hfa q hq => h fa hfa q (List.mem_cons_of_mem _ hq))]
    rfl

theorem gather_fold_skips (filters : List FilterArg) :
    ∀ (rs acc : List (List (String × PyVal))),
      (∀ fa ∈ filters, ∀ rec ∈ rs, ∀ p ∈ rec, avoidsB [p.1] fa = true) →
      rs.foldlM (gather_record idDeser filters) acc = .ok (acc ++ rs) := by
  intro rs
  induction rs with
  | nil => intro acc _; simp [List.foldlM, except_pure_eq_ok]
  | cons rec rss ih =>
    intro acc hh
    rw [List.foldlM_cons]
    simp only [gather_record]
    rw [process_record_skips filters rec
      (fun fa hfa p hp => hh fa hfa rec (List.mem_cons_self _ _) p hp)]
    simp only [except_ok_bind, except_pure_eq_ok, if_true]
    rw [ih (acc ++ [rec]) (fun fa hfa r hr p hp => hh fa hfa r (List.mem_cons_of_mem _ hr) p hp)]
    simp

/-- C10: a filter argument whose top-level field name does not occur among
a record's field names is never evaluated against that record and imposes
no constraint — a query whose every filter argument names an absent
(e.g. misspelled) top-level field silently returns every stored record
instead of raising an error. -/
theorem C10_absent_field_filter_matches_all (records : List (List (String × PyVal)))
    (filters : List FilterArg)
    (h : ∀ fa ∈ filters, ∀ rec ∈ records, ∀ p ∈ rec, avoidsB [p.1] fa = true) :
    get_model_instances idDeser records filters = .ok records := by
  simp only [get_model_instances]
  rw [gather_fold_skips filters records [] (fun fa hfa r hr p hp => h fa hfa r hr p hp)]
  simp

/-- Witness for `C10_absent_field_filter_matches_all`: filtering two
records by the absent name `nosuch` returns both records unchanged. -/
theorem C10_absent_field_filter_witness :
    get_model_instances idDeser [[("age", .int 30)], [("age", .int 7)]] [⟨"nosuch", .int 1⟩] =
      .ok [[("age", .int 30)], [("age", .int 7)]] :=
  C10_absent_field_filter_matches_all _ _ (by decide)

/-! ### Saving and updating (`RedisModel.save`, `RedisModel._serialize_data`,
`RedisModel._save`, `BaseRedisManager._update_serialize_fields`)

A model schema is the ordered field map `get_class_fields` produces; every
model carries the implicit `id = RedisId()` entry (a Number field with
`null=False`).  An instance is its current field-value map; the store
holds, for one model, the `max_id` counter and the records keyed by id.
The Python methods mutate `self`; `save` is therefore modelled as a
function returning the new store, the (possibly mutated) instance, and the
raised error if any.  (`_serialize_data` wraps field errors with model and
field context; the message rewrap is not modelled, only the propagation.) -/

inductive FieldKind where
  | plain
  | string
  | number
  | boolean
  | datetime
  | date

/-- Dispatch of `clean` over the modelled field kinds. -/
def fieldClean : FieldKind → FieldCfg → PyVal → Except String PyVal
  | .plain => field_clean
  | .string => string_clean
  | .number => number_clean
  | .boolean => bool_clean
  | .datetime => datetime_clean
  | .date => date_clean

/-- Dispatch of `deserialize_value` over the modelled field kinds. -/
def fieldDeserialize : FieldKind → FieldCfg → PyVal → Bool → Except String PyVal
  | .plain => field_deserialize_value
  | .string => string_deserialize
  | .number => number_deserialize
  | .boolean => bool_deserialize
  | .datetime => datetime_deserialize
  | .date => date_deserialize

structure ModelField where
  name : String
  kind : FieldKind
  cfg : FieldCfg

/-- The implicit `id = RedisId()` field: `RedisNumber` with `null=False`. -/
def idField : ModelField := ⟨"id", .number, ⟨PyVal.none, Option.none, false⟩⟩

/-- A live model instance: its current field values, in schema order. -/
structure RInstance where
  fields : List (String × PyVal)

/-- `self.__fields__['id'].value` (`None` when the id was never set). -/
def instId (inst : RInstance) : PyVal :=
  (lookupField "id" inst.fields).getD PyVal.none

/-- `setattr(self, name, v)` for a schema field: update the entry of that
name in the instance's field map. -/
def setField (name : String) (v : PyVal) (fields : List (String × PyVal)) :
    List (String × PyVal) :=
  fields.map (fun p => if p.1 = name then (p.1, v) else p)

/-- The slice of the store one model sees: its `max_id` counter (absent
until first allocation) and its records keyed by id. -/
structure MStore where
  counter : Option Nat
  records : List (Int × List (String × PyVal))

def upsertRecord (k : Int) (v : List (String × PyVal)) :
    List (Int × List (String × PyVal)) → List (Int × List (String × PyVal))
  | [] => [(k, v)]
  | (k', v') :: rest => if k' = k then (k, v) :: rest else (k', v') :: upsertRecord k v rest

/-- The per-field loop of `_serialize_data`: clean every schema field from
the instance's current values and re-deserialize each cleaned value
(`ignore_deserialization_errors=True`, the manager default); the first
error aborts the whole serialization. -/
def serialize_fields (values : List (String × PyVal)) :
    List ModelField → Except String (List (String × PyVal) × List (String × PyVal))
  | [] => .ok ([], [])
  | f :: rest => do
    let cleaned ← fieldClean f.kind f.cfg ((lookupField f.name values).getD PyVal.none)
    let deser ← fieldDeserialize f.kind f.cfg cleaned true
    let tail ← serialize_fields values rest
    pure ((f.name, cleaned) :: tail.1, (f.name, deser) :: tail.2)

/-- `RedisModel.save`: `_serialize_data` first allocates an id when the
instance's id field is unset — mutating the instance and the stored
counter *before* any field is cleaned — then cleans and re-deserializes
every schema field; only if all of that succeeded does `_save` write the
record under the instance key and copy the deserialized values back onto
the instance. -/
def save (schema : List ModelField) (st : MStore) (inst : RInstance) :
    MStore × RInstance × Option String :=
  let alloc :=
    if (instId inst).isNone then
      let step := next_id st.counter
      ({ st with counter := step.1 }, (⟨setField "id" (.int step.2) inst.fields⟩ : RInstance))
    else (st, inst)
  let st1 := alloc.1
  let inst1 := alloc.2
  match serialize_fields inst1.fields schema with
  | .error e => (st1, inst1, some e)
  | .ok out =>
    match (instId inst1).asInt? with
    | some k =>
      (⟨st1.counter, upsertRecord k out.1 st1.records⟩,
        ⟨out.2.foldl (fun fs p => setField p.1 p.2 fs) inst1.fields⟩, Option.none)
    | Option.none => (st1, inst1, some "invalid literal for int")

/-- `BaseRedisManager._update_serialize_fields`: walk the stored record's
fields; a field named in `fields_to_update` is re-cleaned from its new
value through the model's field (an unknown name would fail attribute
lookup on the model), any other field keeps its stored serialized value. -/
def update_serialize_fields (schemaOf : String → Option (FieldKind × FieldCfg))
    (instanceData : List (String × PyVal)) (fieldsToUpdate : List (String × PyVal)) :
    Except String (List (String × PyVal)) :=
  instanceData.mapM (fun p =>
    match lookupField p.1 fieldsToUpdate with
    | some newVal =>
      match schemaOf p.1 with
      | some kc => (fieldClean kc.1 kc.2 newVal).map (fun c => (p.1, c))
      | Option.none => .error "model has no attribute"
    | Option.none => pure p)

/-- The schema of the spec's end-to-end example
`Task(status=String(choices=...), null=False)`, with the given choice
keys. -/
def statusSchema (keys : List PyVal) : List ModelField :=
  [idField, ⟨"status", .string, ⟨PyVal.none, some keys, false⟩⟩]

theorem truthy_isNone_false (v : PyVal) (h : v.truthy = true) : v.isNone = false := by
  cases v <;> simp_all [PyVal.truthy, PyVal.isNone]

theorem number_clean_int_ok (cfg : FieldCfg) (h : cfg.choices = Option.none) (m : Int) :
    number_clean cfg (.int m) = .ok (.int m) := by
  simp [number_clean, check_value, validate_type, h, PyVal.isNone, PyVal.isIntLike,
    except_ok_bind, except_bind_ok]

theorem number_deserialize_int_ok (cfg : FieldCfg) (m : Int) :
    number_deserialize cfg (.int m) true = .ok (.int m) := by
  simp [number_deserialize, field_deserialize_value, validate_type, PyVal.isNone,
    PyVal.isIntLike, except_ok_bind, except_bind_ok]

/-! ### Claim C3 — choice-restricted fields -/

/-- C3 is refuted at falsy values: `check_value` guards the choices test
with `self.value and self.choices`, so the empty string — not a key of the
choices mapping — passes `clean` and is saved: the record is persisted
with the disallowed value. -/
theorem C3_counterexample_falsy_value_bypasses_choices :
    string_clean ⟨PyVal.none, some [.str "ok", .str "fail"], false⟩ (.str "") =
      .ok (.str "") ∧
    save (statusSchema [.str "ok", .str "fail"]) ⟨Option.none, []⟩
        ⟨[("id", PyVal.none), ("status", .str "")]⟩ =
      (⟨some 1, [((1 : Int), [("id", .int 1), ("status", .str "")])]⟩,
        ⟨[("id", .int 1), ("status", .str "")]⟩, Option.none) := ⟨rfl, rfl⟩

/-- C3 (amended): a *truthy* resolved value absent from a nonempty choices
mapping makes `clean` fail, the save raise, and no record reach the store
(the id counter, however, has already been advanced by `_serialize_data`'s
id allocation, which precedes field cleaning); falsy disallowed values
bypass the choices check entirely (see the counterexample). -/
theorem C3_truthy_disallowed_choice_fails_save
    (st : MStore) (v : PyVal) (keys : List PyVal)
    (hv : v.truthy = true) (hk : keys.isEmpty = false)
    (hm : keys.all (fun k => !pyEq v k) = true) :
    string_clean ⟨PyVal.none, some keys, false⟩ v = .error "value is not allowed" ∧
    (save (statusSchema keys) st ⟨[("id", PyVal.none), ("status", v)]⟩).2.2 =
      some "value is not allowed" ∧
    (save (statusSchema keys) st ⟨[("id", PyVal.none), ("status", v)]⟩).1.records =
      st.records := by
  have hnc : inChoices keys v = false := by
    simp only [List.all_eq_true, Bool.not_eq_true'] at hm
    simp only [inChoices, List.any_eq_false]
    intro k hkmem
    simp [hm k hkmem]
  have hclean : string_clean ⟨PyVal.none, some keys, false⟩ v =
      .error "value is not allowed" := by
    simp [string_clean, check_value, truthy_isNone_false v hv, hv, hk, hnc,
      except_bind_error, except_error_bind]
  have hsave : save (statusSchema keys) st ⟨[("id", PyVal.none), ("status", v)]⟩ =
      ({ st with counter := some (st.counter.getD 0 + 1) },
        ⟨[("id", .int ((st.counter.getD 0 + 1 : Nat) : Int)), ("status", v)]⟩,
        some "value is not allowed") := by
    have hnum := number_clean_int_ok ⟨PyVal.none, Option.none, false⟩ rfl
      ((st.counter.getD 0 : Int) + 1)
    have hnumd := number_deserialize_int_ok ⟨PyVal.none, Option.none, false⟩
      ((st.counter.getD 0 : Int) + 1)
    simp [save, statusSchema, instId, lookupField, setField, serialize_fields, fieldClean,
      fieldDeserialize, idField, next_id, PyVal.isNone, hclean, hnum, hnumd,
      except_ok_bind, except_error_bind, except_bind_ok, except_bind_error, except_pure_eq_ok]
  exact ⟨hclean, by rw [hsave], by rw [hsave]⟩

/-- Witness for `C3_truthy_disallowed_choice_fails_save`: the spec's
end-to-end example, saving `status="bogus"` against choices ok/fail. -/
theorem C3_truthy_disallowed_choice_witness :
    string_clean ⟨PyVal.none, some [.str "ok", .str "fail"], false⟩ (.str "bogus") =
      .error "value is not allowed" ∧
    (save (statusSchema [.str "ok", .str "fail"]) ⟨Option.none, []⟩
        ⟨[("id", PyVal.none), ("status", .str "bogus")]⟩).2.2 =
      some "value is not allowed" ∧
    (save (statusSchema [.str "ok", .str "fail"]) ⟨Option.none, []⟩
        ⟨[("id", PyVal.none), ("status", .str "bogus")]⟩).1.records = [] :=
  C3_truthy_disallowed_choice_fails_save ⟨Option.none, []⟩ (.str "bogus")
    [.str "ok", .str "fail"] rfl rfl rfl

/-! ### Claim C9 — id assignment across saves and updates -/

theorem lookupField_cons (name : String) (p : String × PyVal) (ps : List (String × PyVal)) :
    lookupField name (p :: ps) = if p.1 = name then some p.2 else lookupField name ps := rfl

theorem setField_cons (other : String) (v : PyVal) (p : String × PyVal)
    (ps : List (String × PyVal)) :
    setField other v (p :: ps) = (if p.1 = other then (p.1, v) else p) :: setField other v ps :=
  rfl

theorem lookup_set_self (name : String) (v : PyVal) :
    ∀ fs : List (String × PyVal), (lookupField name fs).isSome = true →
      lookupField name (setField name v fs) = some v := by
  intro fs
  induction fs with
  | nil => intro h; simp [lookupField] at h
  | cons p ps ih =>
    intro h
    rw [setField_cons]
    by_cases hp : p.1 = name
    · rw [if_pos hp, lookupField_cons, if_pos hp]
    · rw [lookupField_cons, if_neg hp] at h
      rw [if_neg hp, lookupField_cons, if_neg hp]
      exact ih h

theorem lookup_set_ne (name other : String) (v : PyVal) (hne : other ≠ name) :
    ∀ fs : List (String × PyVal),
      lookupField name (setField other v fs) = lookupField name fs := by
  intro fs
  induction fs with
  | nil => rfl
  | cons p ps ih =>
    rw [setField_cons]
    by_cases hp : p.1 = other
    · have hpn : ¬ p.1 = name := by rw [hp]; exact hne
      rw [if_pos hp, lookupField_cons, lookupField_cons, if_neg hpn, if_neg hpn, ih]
    · rw [if_neg hp, lookupField_cons, lookupField_cons, ih]

theorem lookup_foldl_set_ne (name : String) :
    ∀ (updates fs : List (String × PyVal)),
      (∀ p ∈ updates, p.1 ≠ name) →
      lookupField name (updates.foldl (fun a p => setField p.1 p.2 a) fs) =
        lookupField name fs := by
  intro updates
  induction updates with
  | nil => intro fs _; rfl
  | cons u us ih =>
    intro fs h
    rw [List.foldl_cons, ih _ (fun p hp => h p (List.mem_cons_of_mem _ hp))]
    exact lookup_set_ne name u.1 u.2 (h u (List.mem_cons_self _ _)) fs

theorem serialize_fields_names (values : List (String × PyVal)) :
    ∀ (schema : List ModelField) (out : List (String × PyVal) × List (String × PyVal)),
      serialize_fields values schema = .ok out →
      out.2.map Prod.fst = schema.map ModelField.name := by
  intro schema
  induction schema with
  | nil =>
    intro out h
    simp only [serialize_fields] at h
    cases h
    rfl
  | cons f rest ih =>
    intro out h
    simp only [serialize_fields] at h
    cases hc : fieldClean f.kind f.cfg ((lookupField f.name values).getD PyVal.none) with
    | error e => rw [hc] at h; exact absurd h (by simp [except_error_bind])
    | ok c =>
      rw [hc] at h
      simp only [except_ok_bind] at h
      cases hd : fieldDeserialize f.kind f.cfg c true with
      | error e => rw [hd] at h; exact absurd h (by simp [except_error_bind])
      | ok w =>
        rw [hd] at h
        simp only [except_ok_bind] at h
        cases ht : serialize_fields values rest with
        | error e => rw [ht] at h; exact absurd h (by simp [except_error_bind])
        | ok t =>
          rw [ht] at h
          simp only [except_ok_bind, except_pure_eq_ok] at h
          cases h
          simpa using ih t ht

/-- `save` on an instance whose id field already holds an integer: the id
is never reassigned — not by a failing serialization, and not by the
write-back of deserialized fields — and the counter is untouched. -/
theorem save_keeps_int_id (rest : List ModelField) (st : MStore) (inst : RInstance) (k : Int)
    (hid : lookupField "id" inst.fields = some (.int k))
    (hrest : ∀ f ∈ rest, f.name ≠ "id") :
    instId (save (idField :: rest) st inst).2.1 = .int k ∧
    (save (idField :: rest) st inst).1.counter = st.counter := by
  have hinst : instId inst = .int k := by simp [instId, hid]
  have hgetd : (lookupField "id" inst.fields).getD PyVal.none = .int k := by simp [hid]
  have hnum := number_clean_int_ok ⟨PyVal.none, Option.none, false⟩ rfl k
  have hnumd := number_deserialize_int_ok ⟨PyVal.none, Option.none, false⟩ k
  cases hr : serialize_fields inst.fields rest with
  | error e =>
    have htop : serialize_fields inst.fields (idField :: rest) = .error e := by
      simp [serialize_fields, fieldClean, fieldDeserialize, idField, hgetd, hnum, hnumd, hr,
        except_ok_bind, except_error_bind, except_bind_ok, except_bind_error]
    simp [save, hinst, PyVal.isNone, htop]
  | ok t =>
    have htop : serialize_fields inst.fields (idField :: rest) =
        .ok (("id", PyVal.int k) :: t.1, ("id", PyVal.int k) :: t.2) := by
      simp [serialize_fields, fieldClean, fieldDeserialize, idField, hgetd, hnum, hnumd, hr,
        except_ok_bind, except_error_bind, except_bind_ok, except_bind_error, except_pure_eq_ok]
    have hT : ∀ p ∈ t.2, p.1 ≠ "id" := by
      intro p hp
      have hmem : p.1 ∈ rest.map ModelField.name := by
        rw [← serialize_fields_names inst.fields rest t hr]
        exact List.mem_map_of_mem _ hp
      obtain ⟨f, hf, hfe⟩ := List.mem_map.1 hmem
      rw [← hfe]
      exact hrest f hf
    have hlook : lookupField "id"
        (t.2.foldl (fun fs p => setField p.1 p.2 fs) (setField "id" (PyVal.int k) inst.fields)) =
        some (.int k) := by
      rw [lookup_foldl_set_ne "id" t.2 _ hT]
      exact lookup_set_self "id" (.int k) inst.fields (by simp [hid])
    simp [save, hinst, hgetd, PyVal.isNone, htop, PyVal.asInt?, instId, hlook]

/-- The allocation step of `_serialize_data`: saving an instance whose id
field is unset first advances the counter and writes `counter + 1` into
the instance's id field, and then proceeds exactly as a save of that
mutated instance against the updated store. -/
theorem save_alloc_step (schema : List ModelField) (st : MStore) (inst : RInstance)
    (h : lookupField "id" inst.fields = some PyVal.none) :
    save schema st inst =
      save schema { st with counter := some (st.counter.getD 0 + 1) }
        ⟨setField "id" (.int ((st.counter.getD 0 + 1 : Nat) : Int)) inst.fields⟩ := by
  have h1 : instId inst = PyVal.none := by simp [instId, h]
  have h2 : lookupField "id"
      (setField "id" (.int ((st.counter.getD 0 : Int) + 1)) inst.fields) =
      some (.int ((st.counter.getD 0 : Int) + 1)) :=
    lookup_set_self "id" _ inst.fields (by simp [h])
  have h3 : instId ⟨setField "id" (.int ((st.counter.getD 0 : Int) + 1)) inst.fields⟩ =
      .int ((st.counter.getD 0 : Int) + 1) := by simp [instId, h2]
  simp [save, h1, h3, PyVal.isNone, next_id]

theorem update_keeps_missing_field (schemaOf : String → Option (FieldKind × FieldCfg))
    (name : String) :
    ∀ (data updates out : List (String × PyVal)),
      lookupField name updates = Option.none →
      update_serialize_fields schemaOf data updates = .ok out →
      lookupField name out = lookupField name data := by
  intro data
  induction data with
  | nil =>
    intro updates out h1 h2
    simp only [update_serialize_fields, List.mapM_nil] at h2
    cases h2
    rfl
  | cons p ps ih =>
    intro updates out h1 h2
    simp only [update_serialize_fields, List.mapM_cons] at h2
    cases hstep : (match lookupField p.1 updates with
      | some newVal =>
        match schemaOf p.1 with
        | some kc => (fieldClean kc.1 kc.2 newVal).map (fun c => (p.1, c))
        | Option.none => (Except.error "model has no attribute" : Except String (String × PyVal))
      | Option.none => pure p) with
    | error e =>
      rw [hstep] at h2
      exact absurd h2 (by simp [except_error_bind])
    | ok q =>
      rw [hstep] at h2
      simp only [except_ok_bind] at h2
      cases hrest : List.mapM (fun p =>
          match lookupField p.1 updates with
          | some newVal =>
            match schemaOf p.1 with
            | some kc => (fieldClean kc.1 kc.2 newVal).map (fun c => (p.1, c))
            | Option.none => (Except.error "model has no attribute" : Except String (String × PyVal))
          | Option.none => pure p) ps with
      | error e =>
        rw [hrest] at h2
        exact absurd h2 (by simp [except_error_bind])
      | ok rest =>
        rw [hrest] at h2
        simp only [except_ok_bind, except_pure_eq_ok] at h2
        cases h2
        have hq1 : q.1 = p.1 := by
          cases hl : lookupField p.1 updates with
          | none =>
            rw [hl] at hstep
            dsimp only at hstep
            cases hstep
            rfl
          | some newVal =>
            rw [hl] at hstep
            dsimp only at hstep
            cases hs : schemaOf p.1 with
            | none =>
              rw [hs] at hstep
              dsimp only at hstep
              cases hstep
            | some kc =>
              rw [hs] at hstep
              dsimp only at hstep
              cases hcl : fieldClean kc.1 kc.2 newVal with
              | error e =>
                rw [hcl] at hstep
                simp only [Except.map] at hstep
                cases hstep
              | ok c =>
                rw [hcl] at hstep
                simp only [Except.map] at hstep
                cases hstep
                rfl
        by_cases hp : p.1 = name
        · -- the record's entry for `name` was not in `fields_to_update`
          have hnu : lookupField p.1 updates = Option.none := by rw [hp]; exact h1
          rw [hnu] at hstep
          cases hstep
          simp [lookupField, hp]
        · have hq : q.1 ≠ name := by rw [hq1]; exact hp
          simp only [lookupField, if_neg hq, if_neg hp]
          exact ih updates rest h1 (by
            simpa only [update_serialize_fields] using hrest)

/-- C9 is refuted: `_serialize_data` assigns the id *before* any field is
cleaned, so a save that then fails validation has already allocated and
assigned the id — an instance whose save never succeeded can carry one.
Saving a fresh instance with the disallowed status `bogus` raises and
persists no record, yet leaves the instance with id 1 and the counter
advanced. -/
theorem C9_counterexample_failed_save_assigns_id :
    (save (statusSchema [.str "ok"]) ⟨Option.none, []⟩
        ⟨[("id", PyVal.none), ("status", .str "bogus")]⟩).2.2 =
      some "value is not allowed" ∧
    instId (save (statusSchema [.str "ok"]) ⟨Option.none, []⟩
        ⟨[("id", PyVal.none), ("status", .str "bogus")]⟩).2.1 = .int 1 ∧
    (save (statusSchema [.str "ok"]) ⟨Option.none, []⟩
        ⟨[("id", PyVal.none), ("status", .str "bogus")]⟩).1.records = [] ∧
    (save (statusSchema [.str "ok"]) ⟨Option.none, []⟩
        ⟨[("id", PyVal.none), ("status", .str "bogus")]⟩).1.counter = some 1 :=
  ⟨rfl, rfl, rfl, rfl⟩

/-- C9 (amended): the id field is assigned at most once, at the start of
the *first save attempt* — whether or not that save succeeds, a fresh
instance comes out of `save` holding `counter + 1`; once the id holds an
integer, later saves never reassign it (in the failing and in the
succeeding branch alike) and never advance the counter, and an update
whose `fields_to_update` does not name `id` carries the stored id over
unchanged. -/
theorem C9_id_assigned_on_first_save_attempt :
    (∀ (rest : List ModelField) (st : MStore) (inst : RInstance) (k : Int),
      lookupField "id" inst.fields = some (.int k) →
      (∀ f ∈ rest, f.name ≠ "id") →
      instId (save (idField :: rest) st inst).2.1 = .int k ∧
      (save (idField :: rest) st inst).1.counter = st.counter) ∧
    (∀ (rest : List ModelField) (st : MStore) (inst : RInstance),
      lookupField "id" inst.fields = some PyVal.none →
      (∀ f ∈ rest, f.name ≠ "id") →
      instId (save (idField :: rest) st inst).2.1 =
        .int ((st.counter.getD 0 + 1 : Nat) : Int)) ∧
    (∀ (schemaOf : String → Option (FieldKind × FieldCfg))
        (data updates out : List (String × PyVal)),
      lookupField "id" updates = Option.none →
      update_serialize_fields schemaOf data updates = .ok out →
      lookupField "id" out = lookupField "id" data) := by
  refine ⟨fun rest st inst k hid hrest => save_keeps_int_id rest st inst k hid hrest,
    fun rest st inst hid hrest => ?_,
    fun so d u o h1 h2 => update_keeps_missing_field so "id" d u o h1 h2⟩
  rw [save_alloc_step (idField :: rest) st inst hid]
  have hset := lookup_set_self "id" (.int ((st.counter.getD 0 + 1 : Nat) : Int)) inst.fields
    (by simp [hid])
  exact (save_keeps_int_id rest _ _ _ hset hrest).1

/-- Witness for `C9_id_assigned_on_first_save_attempt` at concrete inputs:
a saved instance keeps id 7, a fresh instance gets id 1, and an update not
naming `id` keeps the stored id. -/
theorem C9_id_assignment_witness :
    (instId (save [idField] ⟨Option.none, []⟩ ⟨[("id", .int 7)]⟩).2.1 = .int 7 ∧
      (save [idField] ⟨Option.none, []⟩ ⟨[("id", .int 7)]⟩).1.counter = Option.none) ∧
    instId (save [idField] ⟨Option.none, []⟩ ⟨[("id", PyVal.none)]⟩).2.1 = .int 1 ∧
    lookupField "id" [("id", .int 3), ("x", .int 9)] =
      lookupField "id" [("id", .int 3), ("x", .int 0)] :=
  ⟨C9_id_assigned_on_first_save_attempt.1 [] ⟨Option.none, []⟩ ⟨[("id", .int 7)]⟩ 7 rfl
      (by simp),
    C9_id_assigned_on_first_save_attempt.2.1 [] ⟨Option.none, []⟩ ⟨[("id", PyVal.none)]⟩ rfl
      (by simp),
    C9_id_assigned_on_first_save_attempt.2.2
      (fun n => if n = "x" then some (.number, rtCfg) else Option.none)
      [("id", .int 3), ("x", .int 0)] [("x", .int 9)] [("id", .int 3), ("x", .int 9)]
      rfl rfl⟩

end RedisModels
